import Mathlib

/-!
Verification of the TOON utility wrapper (lib/toon_util.py).

The program converts between JSON and the TOON serialization format and
extracts dotted-path fields from decoded documents.  The embedding below
models:

* the JSON-equivalent document tree (`JValue`, with mutually inductive
  array and object spines so that every function is structurally
  recursive and kernel-reducible);
* the external TOON library boundary (`toon_encode` / `toon_decode`),
  which is not part of this repository and is therefore modelled from
  the spec as an opaque token serialization with a real parser;
* the Python standard-library pieces the source calls (`json.dumps`
  compact and with `indent=2`, `str.split`, `str.isdigit`, `dict.get`,
  list indexing), each translated faithfully for the value domain of
  the documents (integers as the numeric scalars);
* the file operations (`encode_file`, `decode_file`, `read_toon`,
  `get_field`) as explicit state passing over a filesystem map, with
  Python exceptions modelled by `Except`.
-/

/-! Decoded document tree: mappings, sequences and scalar leaves
(string, number, boolean, null), as in section 3 of the spec.  The
numeric scalars are modelled as integers, the numeric domain of every
document in the spec and in the repository.  Arrays and objects are
given their own spine types so that all recursion is structural. -/
mutual
inductive JValue where
  | null : JValue
  | bool : Bool → JValue
  | num : Int → JValue
  | str : String → JValue
  | arr : JArr → JValue
  | obj : JObj → JValue
inductive JArr where
  | nil : JArr
  | cons : JValue → JArr → JArr
inductive JObj where
  | nil : JObj
  | cons : String → JValue → JObj → JObj
end

deriving instance DecidableEq for JValue

/-- Modelled from the spec: the external TOON library owns the grammar
of the TOON text format, which the spec treats as opaque.  TOON text is
modelled as a sequence of tokens; the token alphabet is a length
prefixed serialization of the document tree. -/
inductive Tok where
  | tnull : Tok
  | tbool : Bool → Tok
  | tnum : Int → Tok
  | tstr : String → Tok
  | tarr : Nat → Tok
  | tobj : Nat → Tok
  | tkey : String → Tok
deriving DecidableEq

/-- Number of elements of an array spine. -/
def JArr.length : JArr → Nat
  | .nil => 0
  | .cons _ r => r.length + 1

/-- Number of key-value pairs of an object spine. -/
def JObj.length : JObj → Nat
  | .nil => 0
  | .cons _ _ r => r.length + 1

/-- Zero-based indexing into an array spine; `none` when the index is
out of range, as Python list indexing raises there. -/
def JArr.get? : JArr → Nat → Option JValue
  | .nil, _ => none
  | .cons v _, 0 => some v
  | .cons _ r, n + 1 => r.get? n

/-- First binding of a key in an object spine; objects decoded from
JSON or TOON have distinct keys, so this is the mapping lookup. -/
def JObj.get? : JObj → String → Option JValue
  | .nil, _ => none
  | .cons k v r, key => if k = key then some v else r.get? key

/-- Python `dict.get(key)`: the bound value, or `None` (modelled as the
null scalar, exactly the conflation the source relies on) when the key
is missing. -/
def JObj.getd (kvs : JObj) (key : String) : JValue :=
  match kvs.get? key with
  | some v => v
  | none => .null

/-! Modelled from the spec: the encode direction of the external TOON
library, `toon.encode`.  Serializes a document to the opaque token
text. -/
mutual
def toon_encode : JValue → List Tok
  | .null => [.tnull]
  | .bool b => [.tbool b]
  | .num n => [.tnum n]
  | .str s => [.tstr s]
  | .arr xs => .tarr xs.length :: encodeArr xs
  | .obj kvs => .tobj kvs.length :: encodeObj kvs
def encodeArr : JArr → List Tok
  | .nil => []
  | .cons v r => toon_encode v ++ encodeArr r
def encodeObj : JObj → List Tok
  | .nil => []
  | .cons k v r => .tkey k :: (toon_encode v ++ encodeObj r)
end

/-- Parse `n` consecutive values with the element parser `p`,
returning the array spine and the unconsumed tail. -/
def parseList (p : List Tok → Option (JValue × List Tok)) :
    Nat → List Tok → Option (JArr × List Tok)
  | 0, toks => some (.nil, toks)
  | n + 1, toks =>
    match p toks with
    | none => none
    | some (v, rest) =>
      match parseList p n rest with
      | none => none
      | some (vs, rest2) => some (.cons v vs, rest2)

/-- Parse `n` consecutive key-value pairs with the value parser `p`. -/
def parseKVs (p : List Tok → Option (JValue × List Tok)) :
    Nat → List Tok → Option (JObj × List Tok)
  | 0, toks => some (.nil, toks)
  | n + 1, .tkey k :: toks =>
    match p toks with
    | none => none
    | some (v, rest) =>
      match parseKVs p n rest with
      | none => none
      | some (kvs, rest2) => some (.cons k v kvs, rest2)
  | _ + 1, _ => none

/-- Fuelled parser for one document off the front of a token text.
The fuel bounds the nesting depth; `toon_decode` supplies enough fuel
for any input of the given length. -/
def parseVal : Nat → List Tok → Option (JValue × List Tok)
  | 0, _ => none
  | fuel + 1, toks =>
    match toks with
    | .tnull :: r => some (.null, r)
    | .tbool b :: r => some (.bool b, r)
    | .tnum n :: r => some (.num n, r)
    | .tstr s :: r => some (.str s, r)
    | .tarr n :: r =>
      match parseList (fun ts => parseVal fuel ts) n r with
      | some (xs, r2) => some (.arr xs, r2)
      | none => none
    | .tobj n :: r =>
      match parseKVs (fun ts => parseVal fuel ts) n r with
      | some (kvs, r2) => some (.obj kvs, r2)
      | none => none
    | [] => none
    | .tkey _ :: _ => none

/-- Python exceptions that the modelled operations can raise. -/
inductive PyErr where
  | fileNotFound : PyErr
  | jsonError : PyErr
  | decodeError : PyErr
  | indexError : PyErr
deriving DecidableEq

/-- Modelled from the spec: the decode direction of the external TOON
library, `toon.decode`.  A token text decodes to a document when it is
exactly one well-formed serialized value; anything else is a decoding
error, which the wrapper propagates.  The fuel `length + 1` dominates
the nesting depth of any document the text can serialize. -/
def toon_decode (toks : List Tok) : Except PyErr JValue :=
  match parseVal (toks.length + 1) toks with
  | some (v, []) => .ok v
  | _ => .error .decodeError

/-- One hexadecimal digit, lowercase, as CPython prints in `\uXXXX`
escapes. -/
def hexDigit (n : Nat) : Char :=
  if n < 10 then Char.ofNat (48 + n) else Char.ofNat (87 + n)

/-- Four-digit lowercase hexadecimal rendering of a code unit. -/
def hex4 (n : Nat) : String :=
  String.mk [hexDigit (n / 4096 % 16), hexDigit (n / 256 % 16),
             hexDigit (n / 16 % 16), hexDigit (n % 16)]

/-- Escaping of one character inside a JSON string literal, as
`json.dumps` does with its default `ensure_ascii=True`: the named
escapes, printable ASCII verbatim, and `\uXXXX` (with surrogate pairs
beyond the basic plane) for everything else. -/
def jsonEscChar (c : Char) : String :=
  if c = '"' then "\\\""
  else if c = '\\' then "\\\\"
  else if c = '\n' then "\\n"
  else if c = '\r' then "\\r"
  else if c = '\t' then "\\t"
  else if c = Char.ofNat 8 then "\\b"
  else if c = Char.ofNat 12 then "\\f"
  else if 32 ≤ c.toNat ∧ c.toNat ≤ 126 then String.mk [c]
  else if c.toNat ≤ 65535 then "\\u" ++ hex4 c.toNat
  else "\\u" ++ hex4 (55296 + (c.toNat - 65536) / 1024) ++
       "\\u" ++ hex4 (56320 + (c.toNat - 65536) % 1024)

/-- A JSON string literal: quotes around the escaped characters. -/
def jsonQuote (s : String) : String :=
  "\"" ++ String.join (s.data.map jsonEscChar) ++ "\""

/-! Compact rendering of a JSON scalar or container, as the default
`json.dumps(value)` call of the source: item separator `, ` and
key separator `: `. -/
mutual
def json_dumps : JValue → String
  | .null => "null"
  | .bool true => "true"
  | .bool false => "false"
  | .num n => toString n
  | .str s => jsonQuote s
  | .arr xs => "[" ++ dumpsItems xs ++ "]"
  | .obj kvs => "\x7b" ++ dumpsPairs kvs ++ "\x7d"
def dumpsItems : JArr → String
  | .nil => ""
  | .cons v .nil => json_dumps v
  | .cons v r => json_dumps v ++ ", " ++ dumpsItems r
def dumpsPairs : JObj → String
  | .nil => ""
  | .cons k v .nil => jsonQuote k ++ ": " ++ json_dumps v
  | .cons k v r => jsonQuote k ++ ": " ++ json_dumps v ++ ", " ++ dumpsPairs r
end

/-- Indentation of `2 * lvl` spaces. -/
def indentSp (lvl : Nat) : String :=
  String.mk (List.replicate (2 * lvl) ' ')

/-! Pretty rendering with two-space indentation, as the
`json.dumps(data, indent=2)` calls of the source: empty containers
print inline, non-empty containers put each item on its own line,
items separated by a comma and a newline, keys separated by `: `. -/
mutual
def json_dumps_indent : Nat → JValue → String
  | _, .null => "null"
  | _, .bool true => "true"
  | _, .bool false => "false"
  | _, .num n => toString n
  | _, .str s => jsonQuote s
  | _, .arr .nil => "[]"
  | lvl, .arr (.cons v r) =>
      "[\n" ++ dumpsItemsInd (lvl + 1) (.cons v r) ++ "\n" ++ indentSp lvl ++ "]"
  | _, .obj .nil => "\x7b\x7d"
  | lvl, .obj (.cons k v r) =>
      "\x7b\n" ++ dumpsPairsInd (lvl + 1) (.cons k v r) ++ "\n" ++ indentSp lvl ++ "\x7d"
def dumpsItemsInd : Nat → JArr → String
  | _, .nil => ""
  | lvl, .cons v .nil => indentSp lvl ++ json_dumps_indent lvl v
  | lvl, .cons v r =>
      indentSp lvl ++ json_dumps_indent lvl v ++ ",\n" ++ dumpsItemsInd lvl r
def dumpsPairsInd : Nat → JObj → String
  | _, .nil => ""
  | lvl, .cons k v .nil => indentSp lvl ++ jsonQuote k ++ ": " ++ json_dumps_indent lvl v
  | lvl, .cons k v r =>
      indentSp lvl ++ jsonQuote k ++ ": " ++ json_dumps_indent lvl v ++ ",\n" ++
      dumpsPairsInd lvl r
end

/-- Python `str.isdigit` on the segments of a field path: nonempty and
all characters decimal digits.  The model restricts the digits to the
ASCII `0`-`9`, the all-digits notion of the spec; CPython additionally
accepts certain non-ASCII digit characters there, so the model and the
program coincide exactly on ASCII segments, and the statements whose
conclusion depends on `isdigit` being false restrict that case to
ASCII segments. -/
def pyIsdigit (s : String) : Bool :=
  !s.data.isEmpty && s.data.all Char.isDigit

/-- The string has ASCII characters only.  On such segments the model
`pyIsdigit` agrees exactly with CPython `str.isdigit`; on segments with
non-ASCII digit characters CPython takes the index branch the model
cannot see. -/
def strIsAscii (s : String) : Bool :=
  s.data.all (fun c => c.toNat < 128)

/-- Python `int(part)` on an all-digits segment: the decimal value. -/
def strToNat (s : String) : Nat :=
  s.data.foldl (fun n c => 10 * n + (c.toNat - 48)) 0

/-- Python `field.split(".")`: split at every dot, keeping empty
segments, so the result is always nonempty. -/
def splitDotAux : List Char → List Char → List String
  | [], acc => [String.mk acc.reverse]
  | c :: cs, acc =>
    if c = '.' then String.mk acc.reverse :: splitDotAux cs []
    else splitDotAux cs (c :: acc)

/-- Python `field.split(".")` on a string value. -/
def pySplitDot (s : String) : List String :=
  splitDotAux s.data []

/-- Contents of a file in the modelled filesystem.  A JSON input file
is identified with the document `json.load` reads from it (modelled
from the spec, the JSON grammar being owned by the standard library),
a TOON file holds a token text, and `plain` holds output text written
by the wrapper. -/
inductive FileText where
  | plain : String → FileText
  | jsonTxt : JValue → FileText
  | toonTxt : List Tok → FileText
deriving DecidableEq

/-- The filesystem: a map from path to file contents. -/
abbrev FS := String → Option FileText

/-- Writing a file: the single creation/overwrite at the given path,
every other path untouched. -/
def pyWrite (fs : FS) (path : String) (content : FileText) : FS :=
  Function.update fs path (some content)

/-- Modelled from the spec: `json.load` on an open file, owned by the
Python standard library.  Reads the document off a JSON input file;
any other contents fail to parse as JSON and the error propagates. -/
def json_load : FileText → Except PyErr JValue
  | .jsonTxt d => .ok d
  | _ => .error .jsonError

/-- Decoding the contents of a file opened as TOON text: a token text
is decoded by the library model, any other contents are a decoding
error that propagates. -/
def toon_decode_text : FileText → Except PyErr JValue
  | .toonTxt t => toon_decode t
  | _ => .error .decodeError

/-- Decidable equality of modelled results, used by the concrete
witness and counterexample computations. -/
instance instDecEqExcept : DecidableEq (Except PyErr String) := fun a b =>
  match a, b with
  | .ok x, .ok y =>
    if h : x = y then .isTrue (by rw [h]) else .isFalse (by intro hc; cases hc; exact h rfl)
  | .error x, .error y =>
    if h : x = y then .isTrue (by rw [h]) else .isFalse (by intro hc; cases hc; exact h rfl)
  | .ok _, .error _ => .isFalse (by intro hc; cases hc)
  | .error _, .ok _ => .isFalse (by intro hc; cases hc)

/-- The field-traversal loop of `read_toon` (toon_util.py lines 68-76):
at each segment, a mapping is looked up with `dict.get` (a missing key
yields `None` and the next iteration stops the walk with `None`, which
the recursion on the null marker reproduces); a sequence with an
all-digits segment is indexed, raising `IndexError` out of range; any
other combination sets the result to `None` and breaks. -/
def walkFields : JValue → List String → Except PyErr JValue
  | value, [] => .ok value
  | value, part :: rest =>
    match value with
    | .obj kvs => walkFields (kvs.getd part) rest
    | .arr xs =>
      if pyIsdigit part then
        match xs.get? (strToNat part) with
        | some v => walkFields v rest
        | none => .error .indexError
      else .ok .null
    | _ => .ok .null

/-- The function `read_toon(toon_path, field=None)` of toon_util.py:
read the file, decode it as TOON, and either pretty-print the whole
document (when `field` is `None` or, being falsy, the empty string) or
split the field on dots, walk the document, and render the result:
compact JSON for a mapping or sequence, `str(value)` for a scalar that
is not `None`, and the empty string for `None`. -/
def read_toon (fs : FS) (toon_path : String) (field : Option String) :
    Except PyErr String :=
  match fs toon_path with
  | none => .error .fileNotFound
  | some txt =>
    match toon_decode_text txt with
    | .error e => .error e
    | .ok data =>
      match field with
      | some f =>
        if f = "" then .ok (json_dumps_indent 0 data)
        else
          match walkFields data (pySplitDot f) with
          | .error e => .error e
          | .ok value =>
            match value with
            | .obj kvs => .ok (json_dumps (.obj kvs))
            | .arr xs => .ok (json_dumps (.arr xs))
            | .null => .ok ""
            | .str s => .ok s
            | .num n => .ok (toString n)
            | .bool b => .ok (if b then "True" else "False")
      | none => .ok (json_dumps_indent 0 data)

/-- The function `get_field(toon_path, field)` of toon_util.py: a plain
delegation to `read_toon` with the field argument present. -/
def get_field (fs : FS) (toon_path : String) (field : String) :
    Except PyErr String :=
  read_toon fs toon_path (some field)

/-- The function `encode_file(json_path, output_path=None)` of
toon_util.py: load the JSON document, encode it to TOON text, and
either write the text to the output path and return the confirmation
message, or return the text itself leaving the filesystem unchanged. -/
def encode_file (fs : FS) (json_path : String) (output_path : Option String) :
    Except PyErr (FileText × FS) :=
  match fs json_path with
  | none => .error .fileNotFound
  | some txt =>
    match json_load txt with
    | .error e => .error e
    | .ok data =>
      let toon_str := toon_encode data
      match output_path with
      | some out => .ok (.plain ("Wrote " ++ out), pyWrite fs out (.toonTxt toon_str))
      | none => .ok (.toonTxt toon_str, fs)

/-- The function `decode_file(toon_path, output_path=None)` of
toon_util.py: read the TOON text, decode it, re-serialize as pretty
JSON with two-space indentation, and either write that string to the
output path and return the confirmation message, or return the string
leaving the filesystem unchanged. -/
def decode_file (fs : FS) (toon_path : String) (output_path : Option String) :
    Except PyErr (String × FS) :=
  match fs toon_path with
  | none => .error .fileNotFound
  | some txt =>
    match toon_decode_text txt with
    | .error e => .error e
    | .ok data =>
      let json_str := json_dumps_indent 0 data
      match output_path with
      | some out => .ok ("Wrote " ++ out, pyWrite fs out (.plain json_str))
      | none => .ok (json_str, fs)

/-- Path resolution as the spec words it: each segment is looked up as
a mapping key when the current value is a mapping, and as a zero-based
in-range numeric index when the current value is a sequence and the
segment is all-digits; `none` when the path is not contained in the
document. -/
def resolvePath : JValue → List String → Option JValue
  | v, [] => some v
  | .obj kvs, p :: ps =>
    match kvs.get? p with
    | some v => resolvePath v ps
    | none => none
  | .arr xs, p :: ps =>
    if pyIsdigit p then
      match xs.get? (strToNat p) with
      | some v => resolvePath v ps
      | none => none
    else none
  | _, _ :: _ => none

/-- A value is a scalar leaf: not a mapping and not a sequence. -/
def isScalar : JValue → Bool
  | .obj _ => false
  | .arr _ => false
  | _ => true

/-- One non-traversable step of the spec: the segment is missing from
the current mapping, or the segment is non-numeric against a sequence,
or the current value is a scalar.  The sequence case is stated for
ASCII segments only: there the modelled `isdigit` coincides with
CPython, while a segment made of non-ASCII digit characters would send
the program down the index branch instead of the silent one. -/
def absentStep (v : JValue) (seg : String) : Prop :=
  (∃ kvs, v = .obj kvs ∧ kvs.get? seg = none)
  ∨ (∃ xs, v = .arr xs ∧ strIsAscii seg = true ∧ pyIsdigit seg = false)
  ∨ isScalar v = true

/-- The traversal of the given parts hits a non-traversable step: some
position is reached by resolution of the prefix before it and is one of
the three silent cases of the spec. -/
def absentAt (d : JValue) (parts : List String) : Prop :=
  ∃ i v seg, parts[i]? = some seg ∧ resolvePath d (parts.take i) = some v
    ∧ absentStep v seg

/-- The traversal of the given parts reaches a sequence with an
all-digits segment whose numeric value is at least the length of the
sequence. -/
def outOfRangeAt (d : JValue) (parts : List String) : Prop :=
  ∃ i xs seg, parts[i]? = some seg ∧ resolvePath d (parts.take i) = some (.arr xs)
    ∧ pyIsdigit seg = true ∧ xs.length ≤ strToNat seg

/-! Nesting depth of a document, a lower bound for parser fuel. -/
mutual
def depthV : JValue → Nat
  | .arr xs => depthA xs + 1
  | .obj kvs => depthO kvs + 1
  | _ => 1
def depthA : JArr → Nat
  | .nil => 0
  | .cons v r => max (depthV v) (depthA r)
def depthO : JObj → Nat
  | .nil => 0
  | .cons _ v r => max (depthV v) (depthO r)
end

/-- The plain string form that Python `str` gives a scalar: the string
itself, the decimal numeral of a number, `True` or `False` for a
boolean; containers and `None` never reach this rendering in the
source. -/
def plainStr : JValue → String
  | .str s => s
  | .num n => toString n
  | .bool b => if b then "True" else "False"
  | _ => ""

/-- Example document `{"style": {"tone": "epic"}, "items": ["x", "y"]}`
from the spec. -/
def docStyle : JValue :=
  .obj (.cons "style" (.obj (.cons "tone" (.str "epic") .nil))
    (.cons "items" (.arr (.cons (.str "x") (.cons (.str "y") .nil))) .nil))

/-- A filesystem with one TOON file holding `docStyle`. -/
def fsStyle : FS :=
  fun q => if q = "doc.toon" then some (.toonTxt (toon_encode docStyle)) else none

/-- Example document `{"a": 1}` from the spec. -/
def docA1 : JValue := .obj (.cons "a" (.num 1) .nil)

/-- A filesystem with one TOON file holding `docA1`. -/
def fsA1 : FS :=
  fun q => if q = "a.toon" then some (.toonTxt (toon_encode docA1)) else none

/-- Example document `{"a": {"b": 1, "c": 2}}` from the spec. -/
def docComposite : JValue :=
  .obj (.cons "a" (.obj (.cons "b" (.num 1) (.cons "c" (.num 2) .nil))) .nil)

/-- A filesystem with one TOON file holding `docComposite`. -/
def fsComposite : FS :=
  fun q => if q = "c.toon" then some (.toonTxt (toon_encode docComposite)) else none

/-- Example document `{"k": null}`: the key is present and bound to the
null scalar. -/
def docKNull : JValue := .obj (.cons "k" .null .nil)

/-- A filesystem with one TOON file holding `docKNull`. -/
def fsKNull : FS :=
  fun q => if q = "k.toon" then some (.toonTxt (toon_encode docKNull)) else none

/-- Document with the empty string as a key bound to a string. -/
def docEmptyKeyStr : JValue := .obj (.cons "" (.str "x") .nil)

/-- A filesystem with one TOON file holding `docEmptyKeyStr`. -/
def fsEmptyKeyStr : FS :=
  fun q => if q = "e.toon" then some (.toonTxt (toon_encode docEmptyKeyStr)) else none

/-- Document with the empty string as a key bound to a sequence. -/
def docEmptyKeyArr : JValue := .obj (.cons "" (.arr (.cons (.num 1) .nil)) .nil)

/-- A filesystem with one TOON file holding `docEmptyKeyArr`. -/
def fsEmptyKeyArr : FS :=
  fun q => if q = "e.toon" then some (.toonTxt (toon_encode docEmptyKeyArr)) else none

/-- Document with the empty string as a key bound to null. -/
def docEmptyKeyNull : JValue := .obj (.cons "" .null .nil)

/-- A filesystem with one TOON file holding `docEmptyKeyNull`. -/
def fsEmptyKeyNull : FS :=
  fun q => if q = "e.toon" then some (.toonTxt (toon_encode docEmptyKeyNull)) else none

/-- A filesystem with a JSON input file and a TOON input file, both
holding `docA1`. -/
def fsPair : FS :=
  fun q =>
    if q = "in.json" then some (.jsonTxt docA1)
    else if q = "in.toon" then some (.toonTxt (toon_encode docA1))
    else none

/-! Round-trip of the modelled TOON serialization: parsing the
encoding of a document, with fuel at least its depth, returns the
document and leaves the trailing tokens unconsumed. -/
mutual
theorem parseVal_encode : ∀ (fuel : Nat) (v : JValue) (rest : List Tok),
    depthV v ≤ fuel → parseVal fuel (toon_encode v ++ rest) = some (v, rest)
  | 0, v, _, h => absurd h (by cases v <;> simp [depthV])
  | _ + 1, .null, _, _ => rfl
  | _ + 1, .bool _, _, _ => rfl
  | _ + 1, .num _, _, _ => rfl
  | _ + 1, .str _, _, _ => rfl
  | fuel + 1, .arr xs, rest, h => by
      have hd : depthA xs ≤ fuel := by simp only [depthV] at h; omega
      have hl := parseList_encode fuel xs rest hd
      simp only [toon_encode, List.cons_append, parseVal]
      rw [hl]
  | fuel + 1, .obj kvs, rest, h => by
      have hd : depthO kvs ≤ fuel := by simp only [depthV] at h; omega
      have hl := parseKVs_encode fuel kvs rest hd
      simp only [toon_encode, List.cons_append, parseVal]
      rw [hl]
theorem parseList_encode : ∀ (fuel : Nat) (xs : JArr) (rest : List Tok),
    depthA xs ≤ fuel →
    parseList (fun ts => parseVal fuel ts) xs.length (encodeArr xs ++ rest) =
      some (xs, rest)
  | _, .nil, _, _ => rfl
  | fuel, .cons v r, rest, h => by
      have hv : depthV v ≤ fuel := le_trans (le_max_left _ _) h
      have hr : depthA r ≤ fuel := le_trans (le_max_right _ _) h
      have h1 := parseVal_encode fuel v (encodeArr r ++ rest) hv
      have h2 := parseList_encode fuel r rest hr
      simp only [JArr.length, encodeArr, List.append_assoc, List.append_eq, parseList]
      simp [h1, h2]
theorem parseKVs_encode : ∀ (fuel : Nat) (kvs : JObj) (rest : List Tok),
    depthO kvs ≤ fuel →
    parseKVs (fun ts => parseVal fuel ts) kvs.length (encodeObj kvs ++ rest) =
      some (kvs, rest)
  | _, .nil, _, _ => rfl
  | fuel, .cons k v r, rest, h => by
      have hv : depthV v ≤ fuel := le_trans (le_max_left _ _) h
      have hr : depthO r ≤ fuel := le_trans (le_max_right _ _) h
      have h1 := parseVal_encode fuel v (encodeObj r ++ rest) hv
      have h2 := parseKVs_encode fuel r rest hr
      simp only [JObj.length, encodeObj, List.cons_append, List.append_assoc,
        List.append_eq, parseKVs]
      simp [h1, h2]
end

/-! The nesting depth of a document is at most the length of its
encoding, so `toon_decode` always carries enough fuel. -/
mutual
theorem depthV_le_length : ∀ v : JValue, depthV v ≤ (toon_encode v).length
  | .null => by simp [depthV, toon_encode]
  | .bool _ => by simp [depthV, toon_encode]
  | .num _ => by simp [depthV, toon_encode]
  | .str _ => by simp [depthV, toon_encode]
  | .arr xs => by
      have := depthA_le_length xs
      simp only [depthV, toon_encode, List.length_cons]
      omega
  | .obj kvs => by
      have := depthO_le_length kvs
      simp only [depthV, toon_encode, List.length_cons]
      omega
theorem depthA_le_length : ∀ xs : JArr, depthA xs ≤ (encodeArr xs).length
  | .nil => by simp [depthA, encodeArr]
  | .cons v r => by
      have h1 := depthV_le_length v
      have h2 := depthA_le_length r
      simp only [depthA, encodeArr, List.length_append]
      omega
theorem depthO_le_length : ∀ kvs : JObj, depthO kvs ≤ (encodeObj kvs).length
  | .nil => by simp [depthO, encodeObj]
  | .cons k v r => by
      have h1 := depthV_le_length v
      have h2 := depthO_le_length r
      simp only [depthO, encodeObj, List.length_cons, List.length_append]
      omega
end

/-- Walking any path from the null marker stays at the null marker, as
the loop of the source breaks at its first iteration there. -/
theorem walkFields_null : ∀ rest : List String, walkFields .null rest = .ok .null
  | [] => rfl
  | _ :: _ => rfl

/-- A resolved prefix of a walk can be stepped over: if the spec-side
resolution takes the document to `v` along `pre`, the traversal loop of
the source reaches exactly `v` there. -/
theorem walkFields_append_of_resolve :
    ∀ (pre : List String) (d v : JValue) (rest : List String),
    resolvePath d pre = some v → walkFields d (pre ++ rest) = walkFields v rest
  | [], d, v, _, h => by
      simp only [resolvePath, Option.some.injEq] at h
      subst h
      rfl
  | p :: ps, d, v, rest, h => by
      cases d with
      | obj kvs =>
          cases hk : kvs.get? p with
          | none => rw [resolvePath, hk] at h; exact absurd h (by simp)
          | some w =>
              rw [resolvePath, hk] at h
              have ih := walkFields_append_of_resolve ps w v rest h
              simpa [walkFields, JObj.getd, hk] using ih
      | arr xs =>
          by_cases hdig : pyIsdigit p
          · cases hi : xs.get? (strToNat p) with
            | none => rw [resolvePath, if_pos hdig, hi] at h; exact absurd h (by simp)
            | some w =>
                rw [resolvePath, if_pos hdig, hi] at h
                have ih := walkFields_append_of_resolve ps w v rest h
                simpa [walkFields, hdig, hi] using ih
          · rw [resolvePath, if_neg hdig] at h; exact absurd h (by simp)
      | null => exact absurd h (by simp [resolvePath])
      | bool _ => exact absurd h (by simp [resolvePath])
      | num _ => exact absurd h (by simp [resolvePath])
      | str _ => exact absurd h (by simp [resolvePath])

/-- A fully resolved path is computed by the traversal loop of the
source without error. -/
theorem walkFields_of_resolve (d v : JValue) (parts : List String)
    (h : resolvePath d parts = some v) : walkFields d parts = .ok v := by
  have h2 := walkFields_append_of_resolve parts d v [] h
  simpa using h2

/-- Indexing at or beyond the length of an array spine yields nothing,
the invalid access that Python raises on. -/
theorem JArr.get?_none_of_le : ∀ (xs : JArr) (n : Nat),
    xs.length ≤ n → xs.get? n = none
  | .nil, _, _ => rfl
  | .cons _ r, n + 1, h =>
      JArr.get?_none_of_le r n (by simpa [JArr.length] using h)
  | .cons _ _, 0, h => by simp [JArr.length] at h

/-- C4: for every filesystem, path and field, `get_field` returns
exactly what `read_toon` returns with that field present, including the
same errors, since it is a plain delegation. -/
theorem c4_get_field_equals_read_toon (fs : FS) (p f : String) :
    get_field fs p f = read_toon fs p (some f) := rfl

/-- C5: for every document without features unsupported by TOON (every
value of the modelled document tree), decoding the encoding of the
document yields the document back, for the spec-modelled external
conversion functions. -/
theorem c5_toon_roundtrip (v : JValue) : toon_decode (toon_encode v) = .ok v := by
  have hfuel : depthV v ≤ (toon_encode v).length + 1 :=
    le_trans (depthV_le_length v) (Nat.le_succ _)
  have h := parseVal_encode ((toon_encode v).length + 1) v [] hfuel
  rw [List.append_nil] at h
  simp [toon_decode, h]

/-- C6: for every TOON file, `read_toon` without a field returns the
whole decoded document pretty-printed with two-space indentation, and
this is exactly the string `decode_file` returns when no output path is
given. -/
theorem c6_read_whole_document_pretty (fs : FS) (p : String) (t : FileText)
    (d : JValue) (hfile : fs p = some t) (hdec : toon_decode_text t = .ok d) :
    read_toon fs p none = .ok (json_dumps_indent 0 d)
    ∧ decode_file fs p none = .ok (json_dumps_indent 0 d, fs) := by
  constructor
  · simp [read_toon, hfile, hdec]
  · simp [decode_file, hfile, hdec]

/-- C6 witness: the whole-document read of the style example equals the
pretty-printed decode result. -/
theorem c6_read_whole_document_pretty_witness :
    fsStyle "doc.toon" = some (.toonTxt (toon_encode docStyle))
    ∧ toon_decode_text (.toonTxt (toon_encode docStyle)) = .ok docStyle
    ∧ read_toon fsStyle "doc.toon" none = .ok (json_dumps_indent 0 docStyle)
    ∧ decode_file fsStyle "doc.toon" none = .ok (json_dumps_indent 0 docStyle, fsStyle) :=
  ⟨rfl, rfl,
    (c6_read_whole_document_pretty fsStyle "doc.toon" _ docStyle rfl rfl).1,
    (c6_read_whole_document_pretty fsStyle "doc.toon" _ docStyle rfl rfl).2⟩

/-- C10: for every filesystem and path, calling `read_toon` with the
empty string as the field performs no extraction and returns exactly
what the call without a field returns, because the Python truthiness
check treats the empty field like an absent one. -/
theorem c10_empty_field_whole_document (fs : FS) (p : String) :
    read_toon fs p (some "") = read_toon fs p none := by
  cases hfs : fs p with
  | none => simp [read_toon, hfs]
  | some txt =>
    cases hdec : toon_decode_text txt with
    | error e => simp [read_toon, hfs, hdec]
    | ok d => simp [read_toon, hfs, hdec]

/-- C1 (amended): for every TOON file whose decoded document contains
the requested dotted path, and a nonempty field, `read_toon` splits the
field on dots, walks the document segment by segment — mapping keys for
mappings, zero-based numeric indices for sequences with all-digits
segments — and returns the resolved string scalar.  The nonemptiness
of the field is forced by the counterexample: the source treats a falsy
empty field as absent before any splitting happens. -/
theorem c1_field_extraction_string (fs : FS) (p : String) (t : FileText)
    (d : JValue) (f s : String)
    (hfile : fs p = some t) (hdec : toon_decode_text t = .ok d)
    (hne : f ≠ "") (hres : resolvePath d (pySplitDot f) = some (.str s)) :
    read_toon fs p (some f) = .ok s := by
  have hw := walkFields_of_resolve d (.str s) (pySplitDot f) hres
  simp [read_toon, hfile, hdec, hne, hw]

/-- C1 witness: on the spec example with items `["x", "y"]`, the field
`items.1` extracts the string `y`. -/
theorem c1_field_extraction_string_witness :
    fsStyle "doc.toon" = some (.toonTxt (toon_encode docStyle))
    ∧ toon_decode_text (.toonTxt (toon_encode docStyle)) = .ok docStyle
    ∧ ("items.1" : String) ≠ ""
    ∧ resolvePath docStyle (pySplitDot "items.1") = some (.str "y")
    ∧ read_toon fsStyle "doc.toon" (some "items.1") = .ok "y" :=
  ⟨rfl, rfl, by decide, rfl,
    c1_field_extraction_string fsStyle "doc.toon" _ docStyle "items.1" "y"
      rfl rfl (by decide) rfl⟩

/-- C1 counterexample: the empty field is a dotted path with one empty
segment, and the document can contain the empty key, yet `read_toon`
with the empty field returns the pretty-printed whole document instead
of the resolved string, because the Python truthiness check on the
field fires first. -/
theorem c1_empty_field_counterexample :
    resolvePath docEmptyKeyStr (pySplitDot "") = some (.str "x")
    ∧ read_toon fsEmptyKeyStr "e.toon" (some "") ≠ .ok "x" :=
  ⟨rfl, by decide⟩

/-- C2: for every TOON file and nonempty field, if the traversal hits a
segment missing from the current mapping, a scalar as current value, or
a non-numeric ASCII segment against a sequence, then `read_toon` raises
no error and returns the empty string.  The sequence case is stated for
ASCII segments, on which the modelled `isdigit` coincides with CPython;
a sequence met with a segment of non-ASCII digit characters is indexed
by the program and is outside this statement. -/
theorem c2_missing_field_empty_string (fs : FS) (p : String) (t : FileText)
    (d : JValue) (f : String)
    (hfile : fs p = some t) (hdec : toon_decode_text t = .ok d)
    (hne : f ≠ "") (habs : absentAt d (pySplitDot f)) :
    read_toon fs p (some f) = .ok "" := by
  obtain ⟨i, v, seg, hseg, hres, hstep⟩ := habs
  rw [List.getElem?_eq_some] at hseg
  obtain ⟨hlt, hgi⟩ := hseg
  have hdrop : (pySplitDot f).drop i = seg :: (pySplitDot f).drop (i + 1) := by
    rw [List.drop_eq_getElem_cons hlt, hgi]
  have hwalk : walkFields d (pySplitDot f) = .ok .null := by
    have h1 := walkFields_append_of_resolve ((pySplitDot f).take i) d v
      ((pySplitDot f).drop i) hres
    rw [List.take_append_drop] at h1
    rw [h1, hdrop]
    rcases hstep with ⟨kvs, hv, hk⟩ | ⟨xs, hv, hascii, hd2⟩ | hsc
    · subst hv
      have hget : kvs.getd seg = .null := by simp [JObj.getd, hk]
      simp [walkFields, hget, walkFields_null]
    · subst hv
      simp [walkFields, hd2]
    · cases v with
      | null => exact walkFields_null _
      | bool b => rfl
      | num n => rfl
      | str s => rfl
      | arr xs => simp [isScalar] at hsc
      | obj kvs => simp [isScalar] at hsc
  simp [read_toon, hfile, hdec, hne, hwalk]

/-- C2 witness: on `{"a": 1}` the field `a.b` hits the scalar `1` with
the segment `b` and the read returns the empty string. -/
theorem c2_missing_field_empty_string_witness :
    fsA1 "a.toon" = some (.toonTxt (toon_encode docA1))
    ∧ ("a.b" : String) ≠ ""
    ∧ absentAt docA1 (pySplitDot "a.b")
    ∧ read_toon fsA1 "a.toon" (some "a.b") = .ok "" :=
  ⟨rfl, by decide, ⟨1, .num 1, "b", rfl, rfl, Or.inr (Or.inr rfl)⟩,
    c2_missing_field_empty_string fsA1 "a.toon" _ docA1 "a.b" rfl rfl (by decide)
      ⟨1, .num 1, "b", rfl, rfl, Or.inr (Or.inr rfl)⟩⟩

/-- C3: for every TOON file and field whose traversal reaches a
sequence with an all-digits segment at least the length of the
sequence, `read_toon`, and hence `get_field`, raises the indexing
error, which propagates to the caller instead of an empty string. -/
theorem c3_out_of_range_index_error (fs : FS) (p : String) (t : FileText)
    (d : JValue) (f : String)
    (hfile : fs p = some t) (hdec : toon_decode_text t = .ok d)
    (hoor : outOfRangeAt d (pySplitDot f)) :
    read_toon fs p (some f) = .error .indexError
    ∧ get_field fs p f = .error .indexError := by
  have hne : f ≠ "" := by
    intro hf
    rw [hf] at hoor
    obtain ⟨i, xs, seg, hseg, hres, hdig, hlen⟩ := hoor
    have hp : pySplitDot "" = [""] := rfl
    rw [hp] at hseg
    rw [List.getElem?_eq_some] at hseg
    obtain ⟨hlt, hgi⟩ := hseg
    have hi : i = 0 := by
      simp only [List.length_singleton] at hlt
      omega
    subst hi
    simp only [List.getElem_singleton] at hgi
    rw [← hgi] at hdig
    exact absurd hdig (by decide)
  obtain ⟨i, xs, seg, hseg, hres, hdig, hlen⟩ := hoor
  rw [List.getElem?_eq_some] at hseg
  obtain ⟨hlt, hgi⟩ := hseg
  have hdrop : (pySplitDot f).drop i = seg :: (pySplitDot f).drop (i + 1) := by
    rw [List.drop_eq_getElem_cons hlt, hgi]
  have hwalk : walkFields d (pySplitDot f) = .error .indexError := by
    have h1 := walkFields_append_of_resolve ((pySplitDot f).take i) d (.arr xs)
      ((pySplitDot f).drop i) hres
    rw [List.take_append_drop] at h1
    rw [h1, hdrop]
    have hnone := JArr.get?_none_of_le xs (strToNat seg) hlen
    simp [walkFields, hdig, hnone]
  constructor
  · simp [read_toon, hfile, hdec, hne, hwalk]
  · simp [get_field, read_toon, hfile, hdec, hne, hwalk]

/-- C3 witness: on the style example the field `items.7` indexes the
two-element sequence out of range and both entry points raise the
indexing error. -/
theorem c3_out_of_range_index_error_witness :
    fsStyle "doc.toon" = some (.toonTxt (toon_encode docStyle))
    ∧ outOfRangeAt docStyle (pySplitDot "items.7")
    ∧ read_toon fsStyle "doc.toon" (some "items.7") = .error .indexError
    ∧ get_field fsStyle "doc.toon" "items.7" = .error .indexError := by
  have hoor : outOfRangeAt docStyle (pySplitDot "items.7") :=
    ⟨1, .cons (.str "x") (.cons (.str "y") .nil), "7", rfl, rfl, rfl, by decide⟩
  have h := c3_out_of_range_index_error fsStyle "doc.toon" _ docStyle "items.7"
    rfl rfl hoor
  exact ⟨rfl, hoor, h.1, h.2⟩

/-- C7 (amended): for every TOON file and nonempty field whose
traversal resolves to a value, the source renders a mapping or sequence
as the compact JSON text and any scalar other than the null marker as
its plain string form.  The nonemptiness of the field is forced by the
counterexample: a falsy empty field short-circuits to the whole
pretty-printed document. -/
theorem c7_render_policy (fs : FS) (p : String) (t : FileText)
    (d : JValue) (f : String) (v : JValue)
    (hfile : fs p = some t) (hdec : toon_decode_text t = .ok d)
    (hne : f ≠ "") (hres : resolvePath d (pySplitDot f) = some v) :
    (isScalar v = false → read_toon fs p (some f) = .ok (json_dumps v))
    ∧ (isScalar v = true → v ≠ .null → read_toon fs p (some f) = .ok (plainStr v)) := by
  have hw := walkFields_of_resolve d v (pySplitDot f) hres
  constructor
  · intro hcomp
    cases v with
    | arr xs => simp [read_toon, hfile, hdec, hne, hw]
    | obj kvs => simp [read_toon, hfile, hdec, hne, hw]
    | null => simp [isScalar] at hcomp
    | bool b => simp [isScalar] at hcomp
    | num n => simp [isScalar] at hcomp
    | str s => simp [isScalar] at hcomp
  · intro hsc hnn
    cases v with
    | null => exact absurd rfl hnn
    | bool b => simp [read_toon, hfile, hdec, hne, hw, plainStr]
    | num n => simp [read_toon, hfile, hdec, hne, hw, plainStr]
    | str s => simp [read_toon, hfile, hdec, hne, hw, plainStr]
    | arr xs => simp [isScalar] at hsc
    | obj kvs => simp [isScalar] at hsc

/-- C7 witness: on `{"a": {"b": 1, "c": 2}}` the field `a` resolves to
the inner mapping and the read returns its compact JSON text. -/
theorem c7_render_policy_witness :
    fsComposite "c.toon" = some (.toonTxt (toon_encode docComposite))
    ∧ ("a" : String) ≠ ""
    ∧ resolvePath docComposite (pySplitDot "a") =
        some (.obj (.cons "b" (.num 1) (.cons "c" (.num 2) .nil)))
    ∧ read_toon fsComposite "c.toon" (some "a") = .ok "\x7b\"b\": 1, \"c\": 2\x7d" :=
  ⟨rfl, by decide, rfl,
    (c7_render_policy fsComposite "c.toon" _ docComposite "a"
      (.obj (.cons "b" (.num 1) (.cons "c" (.num 2) .nil)))
      rfl rfl (by decide) rfl).1 rfl⟩

/-- C7 counterexample: with the empty field and a document binding the
empty key to a sequence, the path resolves to that sequence, but the
read returns the pretty-printed whole document, not the compact JSON of
the resolved value. -/
theorem c7_empty_field_counterexample :
    resolvePath docEmptyKeyArr (pySplitDot "") = some (.arr (.cons (.num 1) .nil))
    ∧ isScalar (.arr (.cons (.num 1) .nil)) = false
    ∧ read_toon fsEmptyKeyArr "e.toon" (some "") ≠
        .ok (json_dumps (.arr (.cons (.num 1) .nil))) :=
  ⟨rfl, rfl, by decide⟩

/-- C9 (amended): for every TOON file and nonempty field whose dotted
path is contained in the document with the null scalar as resolved
value, `read_toon` returns the empty string, the very output of a
missing key (the C2 property), so a caller cannot distinguish a present
null from an absent field.  The nonemptiness of the field is forced by
the counterexample. -/
theorem c9_null_field_empty_string (fs : FS) (p : String) (t : FileText)
    (d : JValue) (f : String)
    (hfile : fs p = some t) (hdec : toon_decode_text t = .ok d)
    (hne : f ≠ "") (hres : resolvePath d (pySplitDot f) = some .null) :
    read_toon fs p (some f) = .ok "" := by
  have hw := walkFields_of_resolve d .null (pySplitDot f) hres
  simp [read_toon, hfile, hdec, hne, hw]

/-- C9 witness: on `{"k": null}` the field `k` is present, bound to
null, and the read returns the empty string. -/
theorem c9_null_field_empty_string_witness :
    fsKNull "k.toon" = some (.toonTxt (toon_encode docKNull))
    ∧ ("k" : String) ≠ ""
    ∧ resolvePath docKNull (pySplitDot "k") = some .null
    ∧ read_toon fsKNull "k.toon" (some "k") = .ok "" :=
  ⟨rfl, by decide, rfl,
    c9_null_field_empty_string fsKNull "k.toon" _ docKNull "k" rfl rfl (by decide) rfl⟩

/-- C9 counterexample: with the empty field and a document binding the
empty key to null, the path resolves to null, yet the read returns the
pretty-printed whole document rather than the empty string. -/
theorem c9_empty_field_counterexample :
    resolvePath docEmptyKeyNull (pySplitDot "") = some .null
    ∧ read_toon fsEmptyKeyNull "e.toon" (some "") ≠ .ok "" :=
  ⟨rfl, by decide⟩

/-- C8: for every readable JSON input file and decodable TOON input
file, `encode_file` and `decode_file` with an output path write exactly
the converted text at that path — the returned filesystem is the
pointwise update of the old one at the output path alone — and return
the confirmation string naming the path; without an output path they
return the converted text itself and give back the filesystem
unchanged. -/
theorem c8_file_ops_frame (fs : FS) (jp tp out : String)
    (d e : JValue) (tt : List Tok)
    (hj : fs jp = some (.jsonTxt d))
    (ht : fs tp = some (.toonTxt tt))
    (hd : toon_decode tt = .ok e) :
    encode_file fs jp (some out) =
      .ok (.plain ("Wrote " ++ out), pyWrite fs out (.toonTxt (toon_encode d)))
    ∧ encode_file fs jp none = .ok (.toonTxt (toon_encode d), fs)
    ∧ decode_file fs tp (some out) =
      .ok ("Wrote " ++ out, pyWrite fs out (.plain (json_dumps_indent 0 e)))
    ∧ decode_file fs tp none = .ok (json_dumps_indent 0 e, fs) := by
  refine ⟨?_, ?_, ?_, ?_⟩ <;>
    simp [encode_file, decode_file, hj, ht, hd, json_load, toon_decode_text]

/-- C8 witness: on a filesystem with a JSON file and a TOON file both
holding `{"a": 1}`, the four conversion calls return the modelled
results and filesystems. -/
theorem c8_file_ops_frame_witness :
    fsPair "in.json" = some (.jsonTxt docA1)
    ∧ fsPair "in.toon" = some (.toonTxt (toon_encode docA1))
    ∧ toon_decode (toon_encode docA1) = .ok docA1
    ∧ (encode_file fsPair "in.json" (some "out.txt") =
        .ok (.plain ("Wrote " ++ "out.txt"),
          pyWrite fsPair "out.txt" (.toonTxt (toon_encode docA1)))
      ∧ encode_file fsPair "in.json" none = .ok (.toonTxt (toon_encode docA1), fsPair)
      ∧ decode_file fsPair "in.toon" (some "out.txt") =
        .ok ("Wrote " ++ "out.txt",
          pyWrite fsPair "out.txt" (.plain (json_dumps_indent 0 docA1)))
      ∧ decode_file fsPair "in.toon" none = .ok (json_dumps_indent 0 docA1, fsPair)) :=
  ⟨rfl, rfl, rfl,
    c8_file_ops_frame fsPair "in.json" "in.toon" "out.txt" docA1 docA1
      (toon_encode docA1) rfl rfl rfl⟩
